import Mathlib

/-
Verification of the credential-resolution core of the redletters repository
(src/gui/src-tauri/src/commands/auth.rs).

Rust strings are modelled as lists of Unicode scalar values (Lean Char,
which coincides with the Rust char type). The Rust method str::len returns
the number of UTF-8 bytes, modelled by rustLen below; str::starts_with is
list-prefix comparison; str::trim removes characters with the Unicode
White_Space property from both ends.

The process-external state touched by the code (the OS keychain entry and
the fallback token file) is modelled by an explicit World record.  Each
fallible OS call of the source is a field of World describing its outcome,
and the stateful commands return the updated World.
-/

namespace RedLetters

/-- Number of bytes of the UTF-8 encoding of a scalar value, as computed by
the Rust method char::len_utf8. -/
def charUtf8Size (c : Char) : Nat :=
  if c.val < 0x80 then 1
  else if c.val < 0x800 then 2
  else if c.val < 0x10000 then 3
  else 4

/-- Model of the Rust method str::len: the UTF-8 byte length of a string. -/
def rustLen (s : List Char) : Nat :=
  (s.map charUtf8Size).sum

/-- Model of the Rust method char::is_whitespace: the Unicode White_Space
property. -/
def isRustWhitespace (c : Char) : Bool :=
  (0x09 ≤ c.val && c.val ≤ 0x0D) || c.val == 0x20 || c.val == 0x85 ||
  c.val == 0xA0 || c.val == 0x1680 || (0x2000 ≤ c.val && c.val ≤ 0x200A) ||
  c.val == 0x2028 || c.val == 0x2029 || c.val == 0x202F || c.val == 0x205F ||
  c.val == 0x3000

/-- Model of the Rust method str::starts_with with a string pattern:
rustStartsWith s p is true when p is a prefix of s. -/
def rustStartsWith : List Char → List Char → Bool
  | _, [] => true
  | [], _ :: _ => false
  | c :: cs, p :: ps => p == c && rustStartsWith cs ps

/-- Model of the Rust method str::trim: drop Unicode whitespace from both
ends of the string. -/
def rustTrim (s : List Char) : List Char :=
  ((s.dropWhile isRustWhitespace).reverse.dropWhile isRustWhitespace).reverse

/-- Service name for keychain storage (constant KEYCHAIN_SERVICE). -/
def KEYCHAIN_SERVICE : List Char := "com.redletters.engine".toList

/-- Account name for the auth token (constant KEYCHAIN_ACCOUNT). -/
def KEYCHAIN_ACCOUNT : List Char := "auth_token".toList

/-- Expected token marker at the start of every valid token
(constant TOKEN_PREFIX, the three characters r l underscore). -/
def TOKEN_PREFIX : List Char := "rl_".toList

/-- The struct AuthToken of the source: a token paired with a provenance
tag, which the code sets to "keychain" or "file". -/
structure AuthToken where
  token : List Char
  source : List Char
deriving DecidableEq, Repr

/-- The enum AuthError of the source. -/
inductive AuthError where
  | NotFound
  | InvalidFormat
  | KeychainError (msg : List Char)
  | FileError (msg : List Char)
deriving DecidableEq, Repr

deriving instance DecidableEq for Except

/-- The process-external state the code interacts with.  Each field gives
the outcome of one fallible OS interaction of auth.rs:
keychainEntryNewErr is the error of keyring Entry::new when it fails;
keychainGetFails forces get_password to fail even when a password exists
(locked store, OS error); keychainPassword is the stored secret;
keychainSetErr and keychainDeleteErr are errors of set_password and
delete_password; homeDir is the result of dirs::home_dir; fallbackExists
is path.exists() for the fallback file; fallbackMetadataErr is the error
of fs::metadata when it fails; fallbackMode is the POSIX permission mode
of the fallback file; fallbackContent is the result of
fs::read_to_string. -/
structure World where
  keychainEntryNewErr : Option (List Char)
  keychainGetFails : Bool
  keychainPassword : Option (List Char)
  keychainSetErr : Option (List Char)
  keychainDeleteErr : Option (List Char)
  homeDir : Option (List Char)
  fallbackExists : Bool
  fallbackMetadataErr : Option (List Char)
  fallbackMode : Nat
  fallbackContent : Except (List Char) (List Char)
deriving DecidableEq, Repr

/-- Model of get_fallback_path: home_dir joined with .greek2english and
.auth_token, or None when the home directory is unresolvable. -/
def get_fallback_path (w : World) : Option (List Char) :=
  w.homeDir.map (fun home => home ++ "/.greek2english/.auth_token".toList)

/-- Model of validate_token: token.starts_with(TOKEN_PREFIX) and
token.len() >= 24, where len counts UTF-8 bytes. -/
def validate_token (token : List Char) : Except AuthError Unit :=
  if rustStartsWith token TOKEN_PREFIX = true ∧ 24 ≤ rustLen token then
    Except.ok ()
  else
    Except.error AuthError.InvalidFormat

/-- Model of try_keychain: Entry::new failure becomes KeychainError, any
get_password failure is collapsed to NotFound. -/
def try_keychain (w : World) : Except AuthError (List Char) :=
  match w.keychainEntryNewErr with
  | some e => Except.error (AuthError.KeychainError e)
  | none =>
    if w.keychainGetFails then Except.error AuthError.NotFound
    else
      match w.keychainPassword with
      | some p => Except.ok p
      | none => Except.error AuthError.NotFound

/-- Model of try_fallback_file.  The second component records whether the
permission warning was printed to stderr.  Unresolvable home directory or
an absent file give NotFound; a metadata or read failure gives FileError;
otherwise the trimmed file content is returned, with a warning exactly
when the mode has a bit outside owner read/write (mode AND 0o077 nonzero),
the warning never affecting the returned value. -/
def try_fallback_file (w : World) : Except AuthError (List Char) × Bool :=
  match get_fallback_path w with
  | none => (Except.error AuthError.NotFound, false)
  | some _ =>
    if w.fallbackExists = false then (Except.error AuthError.NotFound, false)
    else
      match w.fallbackMetadataErr with
      | some e => (Except.error (AuthError.FileError e), false)
      | none =>
        let warned := decide (w.fallbackMode &&& 0o77 ≠ 0)
        match w.fallbackContent with
        | Except.error e => (Except.error (AuthError.FileError e), warned)
        | Except.ok s => (Except.ok (rustTrim s), warned)

/-- Model of get_auth_token.  The second component records whether the
fallback tier was consulted: it is false exactly when the function
returned from inside the keychain branch. -/
def get_auth_token (w : World) : Except AuthError AuthToken × Bool :=
  match try_keychain w with
  | Except.ok token =>
    match validate_token token with
    | Except.ok _ => (Except.ok ⟨token, "keychain".toList⟩, false)
    | Except.error e => (Except.error e, false)
  | Except.error _ =>
    match (try_fallback_file w).1 with
    | Except.ok token =>
      match validate_token token with
      | Except.ok _ => (Except.ok ⟨token, "file".toList⟩, true)
      | Except.error e => (Except.error e, true)
    | Except.error _ => (Except.error AuthError.NotFound, true)

/-- Model of set_auth_token: validate first, then create the keyring entry
and store the password; the World is updated only on full success, and
only in its keychainPassword field. -/
def set_auth_token (w : World) (token : List Char) :
    Except AuthError Unit × World :=
  match validate_token token with
  | Except.error e => (Except.error e, w)
  | Except.ok _ =>
    match w.keychainEntryNewErr with
    | some e => (Except.error (AuthError.KeychainError e), w)
    | none =>
      match w.keychainSetErr with
      | some e => (Except.error (AuthError.KeychainError e), w)
      | none => (Except.ok (), { w with keychainPassword := some token })

/-- Model of delete_auth_token: create the keyring entry and delete the
password; the World is updated only in its keychainPassword field. -/
def delete_auth_token (w : World) : Except AuthError Unit × World :=
  match w.keychainEntryNewErr with
  | some e => (Except.error (AuthError.KeychainError e), w)
  | none =>
    match w.keychainDeleteErr with
    | some e => (Except.error (AuthError.KeychainError e), w)
    | none => (Except.ok (), { w with keychainPassword := none })

/-- A concrete World used to evaluate the commands: healthy keychain with
no stored password, resolvable home directory, fallback file present with
owner-only permissions, and a fallback content holding a valid 24-byte
token surrounded by whitespace and newlines. -/
def sampleWorld : World where
  keychainEntryNewErr := none
  keychainGetFails := false
  keychainPassword := none
  keychainSetErr := none
  keychainDeleteErr := none
  homeDir := some "/home/user".toList
  fallbackExists := true
  fallbackMetadataErr := none
  fallbackMode := 0o600
  fallbackContent := Except.ok " \n rl_abcdefghij1234567890x \n".toList

/-- Every scalar value occupies at least one UTF-8 byte. -/
lemma one_le_charUtf8Size (c : Char) : 1 ≤ charUtf8Size c := by
  unfold charUtf8Size
  split
  · exact Nat.le_refl 1
  split
  · omega
  split <;> omega

/-- The byte length of a string is at least its character count. -/
lemma length_le_rustLen (s : List Char) : s.length ≤ rustLen s := by
  induction s with
  | nil => simp [rustLen]
  | cons c cs ih =>
    have hc := one_le_charUtf8Size c
    simp only [rustLen, List.map_cons, List.sum_cons, List.length_cons] at *
    omega

/-- validate_token succeeds exactly on strings with the rl_ marker and at
least 24 bytes. -/
lemma validate_token_ok_iff (s : List Char) :
    validate_token s = Except.ok () ↔
      rustStartsWith s TOKEN_PREFIX = true ∧ 24 ≤ rustLen s := by
  constructor
  · intro h
    by_contra hc
    simp only [validate_token, if_neg hc] at h
    exact Except.noConfusion h
  · intro h
    simp only [validate_token, if_pos h]

/-- When validate_token does not succeed it returns InvalidFormat. -/
lemma validate_token_err_of_not_ok (s : List Char)
    (h : validate_token s ≠ Except.ok ()) :
    validate_token s = Except.error AuthError.InvalidFormat := by
  by_cases hc : rustStartsWith s TOKEN_PREFIX = true ∧ 24 ≤ rustLen s
  · exact absurd (by simp only [validate_token, if_pos hc]) h
  · simp only [validate_token, if_neg hc]

/-- Dropping a satisfying prefix reduces to dropping on the tail list. -/
lemma dropWhile_append_all {α : Type} (p : α → Bool) (l r : List α)
    (h : ∀ x ∈ l, p x = true) :
    (l ++ r).dropWhile p = r.dropWhile p := by
  induction l with
  | nil => rfl
  | cons a as ih =>
    rw [List.cons_append, List.dropWhile_cons_of_pos (h a (List.mem_cons_self a as))]
    exact ih (fun x hx => h x (List.mem_cons_of_mem a hx))

/-- dropWhile is the identity on a list whose first element falsifies the
predicate. -/
lemma dropWhile_head_false {α : Type} (p : α → Bool) (t : List α) (c : α)
    (h1 : t.head? = some c) (h2 : p c = false) :
    t.dropWhile p = t := by
  cases t with
  | nil => rfl
  | cons a as =>
    simp only [List.head?_cons, Option.some.injEq] at h1
    subst h1
    exact List.dropWhile_cons_of_neg (by simp [h2])

/-- Trimming a string that is a well-bounded token surrounded by
whitespace on both sides returns exactly the token: the token is nonempty
and neither its first nor its last character is whitespace. -/
lemma rustTrim_sandwich (wsl wsr t : List Char) (c d : Char)
    (hwsl : ∀ x ∈ wsl, isRustWhitespace x = true)
    (hwsr : ∀ x ∈ wsr, isRustWhitespace x = true)
    (hhead : t.head? = some c) (hc : isRustWhitespace c = false)
    (hlast : t.getLast? = some d) (hd : isRustWhitespace d = false) :
    rustTrim (wsl ++ t ++ wsr) = t := by
  unfold rustTrim
  rw [List.append_assoc, dropWhile_append_all _ _ _ hwsl]
  have hhead2 : (t ++ wsr).head? = some c := by
    cases t with
    | nil => simp at hhead
    | cons a as => simpa using hhead
  rw [dropWhile_head_false _ _ _ hhead2 hc, List.reverse_append]
  rw [dropWhile_append_all _ _ _
    (fun x hx => hwsr x (List.mem_reverse.mp hx))]
  have hrev : t.reverse.head? = some d := by
    rw [List.head?_reverse]; exact hlast
  rw [dropWhile_head_false _ _ _ hrev hd, List.reverse_reverse]

/-- C2. For every string s, validate_token s succeeds iff s starts with
the marker rl_ and its byte length is at least 24; in every other case the
result is exactly the InvalidFormat error, so the function is a pure total
two-case decision with no further checks. -/
theorem validate_token_iff (s : List Char) :
    (validate_token s = Except.ok () ↔
      rustStartsWith s TOKEN_PREFIX = true ∧ 24 ≤ rustLen s) ∧
    (validate_token s = Except.ok () ∨
      validate_token s = Except.error AuthError.InvalidFormat) := by
  constructor
  · constructor
    · intro h
      by_contra hc
      simp only [validate_token, if_neg hc] at h
      exact Except.noConfusion h
    · intro h
      simp only [validate_token, if_pos h]
  · by_cases h : rustStartsWith s TOKEN_PREFIX = true ∧ 24 ≤ rustLen s
    · exact Or.inl (by simp only [validate_token, if_pos h])
    · exact Or.inr (by simp only [validate_token, if_neg h])

/-- C3. Evaluation of validate_token at the three inputs of the unit test
test_validate_token.  The string rl_abcdefghij1234567890 has only 23
characters (23 bytes), so validate_token rejects it with InvalidFormat,
contradicting the assertion is_ok of the unit test; the other two inputs
are rejected as the test expects. -/
theorem validate_token_test_inputs :
    validate_token "rl_abcdefghij1234567890".toList =
      Except.error AuthError.InvalidFormat ∧
    rustLen "rl_abcdefghij1234567890".toList = 23 ∧
    rustStartsWith "rl_abcdefghij1234567890".toList TOKEN_PREFIX = true ∧
    validate_token "invalid_token".toList =
      Except.error AuthError.InvalidFormat ∧
    validate_token "rl_short".toList =
      Except.error AuthError.InvalidFormat := by
  refine ⟨?_, ?_, ?_, ?_, ?_⟩ <;> decide

/-- C2 witness: the iff applied at a concrete 24-character token. -/
theorem validate_token_iff_witness :
    validate_token "rl_abcdefghij1234567890x".toList = Except.ok () :=
  (validate_token_iff "rl_abcdefghij1234567890x".toList).1.mpr
    ⟨by decide, by decide⟩

/-- C1. Fail-closed on malformed primary: whenever try_keychain returns a
token that fails validation, get_auth_token returns InvalidFormat and the
fallback tier is never consulted (the consultation flag is false). -/
theorem get_auth_token_fail_closed (w : World) (t : List Char)
    (hk : try_keychain w = Except.ok t)
    (hv : validate_token t ≠ Except.ok ()) :
    get_auth_token w = (Except.error AuthError.InvalidFormat, false) := by
  have he := validate_token_err_of_not_ok t hv
  simp only [get_auth_token, hk, he]

/-- C1 witness: a world whose keychain holds the malformed token bad. -/
theorem get_auth_token_fail_closed_witness :
    try_keychain { sampleWorld with keychainPassword := some "bad".toList }
      = Except.ok "bad".toList ∧
    get_auth_token { sampleWorld with keychainPassword := some "bad".toList }
      = (Except.error AuthError.InvalidFormat, false) :=
  ⟨by decide,
   get_auth_token_fail_closed
     { sampleWorld with keychainPassword := some "bad".toList }
     "bad".toList (by decide) (by decide)⟩

/-- C5. Keychain hit: whenever try_keychain returns a token that passes
validation, get_auth_token returns exactly that token with provenance
keychain, and the fallback tier is never consulted. -/
theorem get_auth_token_keychain_hit (w : World) (t : List Char)
    (hk : try_keychain w = Except.ok t)
    (hv : validate_token t = Except.ok ()) :
    get_auth_token w = (Except.ok ⟨t, "keychain".toList⟩, false) := by
  simp only [get_auth_token, hk, hv]

/-- C5 witness: a world whose keychain holds a valid token. -/
theorem get_auth_token_keychain_hit_witness :
    get_auth_token
      { sampleWorld with
        keychainPassword := some "rl_keychain1234567890abc".toList }
      = (Except.ok ⟨"rl_keychain1234567890abc".toList, "keychain".toList⟩,
         false) :=
  get_auth_token_keychain_hit
    { sampleWorld with
      keychainPassword := some "rl_keychain1234567890abc".toList }
    "rl_keychain1234567890abc".toList (by decide) (by decide)

/-- C4. Fallback with trimming: when the keychain tier fails and the
fallback file exists and holds a well-bounded valid token surrounded by
whitespace on both sides, get_auth_token returns exactly that token,
trimmed, with provenance file. -/
theorem get_auth_token_fallback_trimmed (w : World)
    (home wsl wsr t : List Char) (c d : Char)
    (hk : ∃ e, try_keychain w = Except.error e)
    (hh : w.homeDir = some home)
    (hex : w.fallbackExists = true)
    (hm : w.fallbackMetadataErr = none)
    (hc2 : w.fallbackContent = Except.ok (wsl ++ t ++ wsr))
    (hwsl : ∀ x ∈ wsl, isRustWhitespace x = true)
    (hwsr : ∀ x ∈ wsr, isRustWhitespace x = true)
    (hhead : t.head? = some c) (hcw : isRustWhitespace c = false)
    (hlast : t.getLast? = some d) (hdw : isRustWhitespace d = false)
    (hv : validate_token t = Except.ok ()) :
    (get_auth_token w).1 = Except.ok ⟨t, "file".toList⟩ := by
  have hfb : (try_fallback_file w).1 = Except.ok t := by
    simp only [try_fallback_file, get_fallback_path, hh, Option.map_some',
      hex, hm, hc2]
    simp only [Bool.true_eq_false, if_false, List.append_assoc]
    simp
    rw [← List.append_assoc]
    exact rustTrim_sandwich wsl wsr t c d hwsl hwsr hhead hcw hlast hdw
  obtain ⟨e, he⟩ := hk
  simp only [get_auth_token, he, hfb, hv]

/-- C4 witness: sampleWorld has an empty keychain and a fallback file
containing a valid token surrounded by spaces and newlines. -/
theorem get_auth_token_fallback_trimmed_witness :
    (get_auth_token sampleWorld).1 =
      Except.ok ⟨"rl_abcdefghij1234567890x".toList, "file".toList⟩ :=
  get_auth_token_fallback_trimmed sampleWorld
    "/home/user".toList " \n ".toList " \n".toList
    "rl_abcdefghij1234567890x".toList
    'r' 'x'
    ⟨AuthError.NotFound, by decide⟩
    (by decide) (by decide) (by decide) (by decide)
    (by decide) (by decide) (by decide) (by decide)
    (by decide) (by decide) (by decide)

/-- When any of the failure conditions of the fallback tier holds, the
fallback read ends in an error. -/
lemma try_fallback_file_err (w : World)
    (h : w.homeDir = none ∨ w.fallbackExists = false ∨
      (∃ m, w.fallbackMetadataErr = some m) ∨
      (∃ r, w.fallbackContent = Except.error r)) :
    ∃ f, (try_fallback_file w).1 = Except.error f := by
  rcases h with h | h | ⟨m, hm⟩ | ⟨r, hr⟩
  · exact ⟨AuthError.NotFound,
      by simp [try_fallback_file, get_fallback_path, h]⟩
  · cases hhd : w.homeDir with
    | none => exact ⟨AuthError.NotFound,
        by simp [try_fallback_file, get_fallback_path, hhd]⟩
    | some home => exact ⟨AuthError.NotFound,
        by simp [try_fallback_file, get_fallback_path, hhd, h]⟩
  · cases hhd : w.homeDir with
    | none => exact ⟨AuthError.NotFound,
        by simp [try_fallback_file, get_fallback_path, hhd]⟩
    | some home =>
      cases hfe : w.fallbackExists with
      | false => exact ⟨AuthError.NotFound,
          by simp [try_fallback_file, get_fallback_path, hhd, hfe]⟩
      | true => exact ⟨AuthError.FileError m,
          by simp [try_fallback_file, get_fallback_path, hhd, hfe, hm]⟩
  · cases hhd : w.homeDir with
    | none => exact ⟨AuthError.NotFound,
        by simp [try_fallback_file, get_fallback_path, hhd]⟩
    | some home =>
      cases hfe : w.fallbackExists with
      | false => exact ⟨AuthError.NotFound,
          by simp [try_fallback_file, get_fallback_path, hhd, hfe]⟩
      | true =>
        cases hmd : w.fallbackMetadataErr with
        | some m => exact ⟨AuthError.FileError m,
            by simp [try_fallback_file, get_fallback_path, hhd, hfe, hmd]⟩
        | none => exact ⟨AuthError.FileError r,
            by simp [try_fallback_file, get_fallback_path, hhd, hfe, hmd,
              hr]⟩

/-- C6. When the keychain tier fails and the fallback tier cannot produce
a candidate (home directory unresolvable, file absent, metadata failure,
or read failure), get_auth_token returns NotFound; moreover an absent
fallback file or an unresolvable home directory makes the fallback read
itself fail with NotFound, never with FileError. -/
theorem get_auth_token_not_found (w : World) :
    ((∃ e, try_keychain w = Except.error e) →
      (w.homeDir = none ∨ w.fallbackExists = false ∨
        (∃ m, w.fallbackMetadataErr = some m) ∨
        (∃ r, w.fallbackContent = Except.error r)) →
      (get_auth_token w).1 = Except.error AuthError.NotFound) ∧
    (w.fallbackExists = false →
      (try_fallback_file w).1 = Except.error AuthError.NotFound) ∧
    (w.homeDir = none →
      (try_fallback_file w).1 = Except.error AuthError.NotFound) := by
  refine ⟨?_, ?_, ?_⟩
  · intro hk hf
    obtain ⟨e, he⟩ := hk
    obtain ⟨f, hfe⟩ := try_fallback_file_err w hf
    simp only [get_auth_token, he, hfe]
  · intro h
    cases hhd : w.homeDir with
    | none => simp [try_fallback_file, get_fallback_path, hhd]
    | some home => simp [try_fallback_file, get_fallback_path, hhd, h]
  · intro h
    simp [try_fallback_file, get_fallback_path, h]

/-- C6 witness: empty keychain and absent fallback file give NotFound. -/
theorem get_auth_token_not_found_witness :
    (get_auth_token { sampleWorld with fallbackExists := false }).1 =
      Except.error AuthError.NotFound :=
  (get_auth_token_not_found
    { sampleWorld with fallbackExists := false }).1
    ⟨AuthError.NotFound, by decide⟩ (Or.inr (Or.inl (by decide)))

/-- C7. Round-trip: storing a valid token on a healthy keychain and then
resolving returns exactly that token with provenance keychain, with the
fallback tier empty or unreachable and never consulted. -/
theorem store_then_resolve_roundtrip (w : World) (t : List Char)
    (hv : validate_token t = Except.ok ())
    (hnew : w.keychainEntryNewErr = none)
    (hset : w.keychainSetErr = none)
    (hget : w.keychainGetFails = false)
    (_hfb : w.homeDir = none ∨ w.fallbackExists = false) :
    (set_auth_token w t).1 = Except.ok () ∧
    get_auth_token (set_auth_token w t).2 =
      (Except.ok ⟨t, "keychain".toList⟩, false) := by
  have hset' : set_auth_token w t =
      (Except.ok (), { w with keychainPassword := some t }) := by
    simp only [set_auth_token, hv, hnew, hset]
  rw [hset']
  refine ⟨rfl, ?_⟩
  have hk : try_keychain { w with keychainPassword := some t } =
      Except.ok t := by
    simp [try_keychain, hnew, hget]
  simp only [get_auth_token, hk, hv]

/-- C7 witness: round-trip of a valid token through a world with an
unresolvable home directory. -/
theorem store_then_resolve_roundtrip_witness :
    (set_auth_token { sampleWorld with homeDir := none }
      "rl_roundtrip123456789012".toList).1 = Except.ok () ∧
    get_auth_token (set_auth_token { sampleWorld with homeDir := none }
      "rl_roundtrip123456789012".toList).2 =
      (Except.ok ⟨"rl_roundtrip123456789012".toList, "keychain".toList⟩,
       false) :=
  store_then_resolve_roundtrip { sampleWorld with homeDir := none }
    "rl_roundtrip123456789012".toList
    (by decide) (by decide) (by decide) (by decide) (Or.inl (by decide))

/-- C8. set_auth_token validates before any write: on a rejected input it
returns InvalidFormat with the whole world unchanged, and on every input
both set_auth_token and delete_auth_token leave every fallback-file field
of the world untouched. -/
theorem set_delete_only_keychain (w : World) (t : List Char) :
    (validate_token t ≠ Except.ok () →
      set_auth_token w t = (Except.error AuthError.InvalidFormat, w)) ∧
    ((set_auth_token w t).2.homeDir = w.homeDir ∧
     (set_auth_token w t).2.fallbackExists = w.fallbackExists ∧
     (set_auth_token w t).2.fallbackMetadataErr = w.fallbackMetadataErr ∧
     (set_auth_token w t).2.fallbackMode = w.fallbackMode ∧
     (set_auth_token w t).2.fallbackContent = w.fallbackContent) ∧
    ((delete_auth_token w).2.homeDir = w.homeDir ∧
     (delete_auth_token w).2.fallbackExists = w.fallbackExists ∧
     (delete_auth_token w).2.fallbackMetadataErr = w.fallbackMetadataErr ∧
     (delete_auth_token w).2.fallbackMode = w.fallbackMode ∧
     (delete_auth_token w).2.fallbackContent = w.fallbackContent) := by
  refine ⟨?_, ?_, ?_⟩
  · intro h
    have he := validate_token_err_of_not_ok t h
    simp only [set_auth_token, he]
  · cases hv : validate_token t with
    | error e => simp [set_auth_token, hv]
    | ok u =>
      cases hn : w.keychainEntryNewErr with
      | some e => simp [set_auth_token, hv, hn]
      | none =>
        cases hs : w.keychainSetErr with
        | some e => simp [set_auth_token, hv, hn, hs]
        | none => simp [set_auth_token, hv, hn, hs]
  · cases hn : w.keychainEntryNewErr with
    | some e => simp [delete_auth_token, hn]
    | none =>
      cases hd : w.keychainDeleteErr with
      | some e => simp [delete_auth_token, hn, hd]
      | none => simp [delete_auth_token, hn, hd]

/-- C8 witness: storing the malformed token bad leaves the world
untouched and reports InvalidFormat. -/
theorem set_delete_only_keychain_witness :
    set_auth_token sampleWorld "bad".toList =
      (Except.error AuthError.InvalidFormat, sampleWorld) :=
  (set_delete_only_keychain sampleWorld "bad".toList).1 (by decide)

/-- C9. Overly permissive fallback file: when the mode has any bit beyond
owner read/write, the fallback read still succeeds with the trimmed
content and the warning flag set; moreover the permission mode never
changes the value the read returns. -/
theorem try_fallback_file_warn_nonfatal (w : World) (home raw : List Char)
    (hh : w.homeDir = some home) (hex : w.fallbackExists = true)
    (hm : w.fallbackMetadataErr = none)
    (hmode : w.fallbackMode &&& 0o77 ≠ 0)
    (hc : w.fallbackContent = Except.ok raw) :
    try_fallback_file w = (Except.ok (rustTrim raw), true) ∧
    ∀ m, (try_fallback_file { w with fallbackMode := m }).1 =
      (try_fallback_file w).1 := by
  have h1 : try_fallback_file w = (Except.ok (rustTrim raw), true) := by
    simp only [try_fallback_file, get_fallback_path, hh, Option.map_some',
      hex, hm, hc]
    simp [decide_eq_true hmode]
  refine ⟨h1, ?_⟩
  intro m
  rw [h1]
  simp [try_fallback_file, get_fallback_path, hh, hex, hm, hc]

/-- C9 witness: mode 644 still yields the trimmed content, warning
emitted. -/
theorem try_fallback_file_warn_nonfatal_witness :
    try_fallback_file { sampleWorld with fallbackMode := 0o644 } =
      (Except.ok (rustTrim " \n rl_abcdefghij1234567890x \n".toList),
       true) :=
  (try_fallback_file_warn_nonfatal
    { sampleWorld with fallbackMode := 0o644 }
    "/home/user".toList " \n rl_abcdefghij1234567890x \n".toList
    (by decide) (by decide) (by decide) (by decide) (by decide)).1

/-- C10. The length check of validate_token counts UTF-8 bytes: every
string with the rl_ marker and at least 24 bytes is accepted and every
accepted string has at least 24 bytes, a string of at least 24 characters
always has at least 24 bytes (so the reverse gap is impossible), and a
concrete multibyte 14-character 25-byte candidate is accepted. -/
theorem validate_token_byte_length :
    (∀ s : List Char, rustStartsWith s TOKEN_PREFIX = true →
      24 ≤ rustLen s → validate_token s = Except.ok ()) ∧
    (∀ s : List Char, validate_token s = Except.ok () → 24 ≤ rustLen s) ∧
    (∀ s : List Char, 24 ≤ s.length → 24 ≤ rustLen s) ∧
    validate_token "rl_ααααααααααα".toList = Except.ok () ∧
    ("rl_ααααααααααα".toList).length = 14 ∧
    rustLen "rl_ααααααααααα".toList = 25 := by
  refine ⟨?_, ?_, ?_, by decide, by decide, by decide⟩
  · intro s h1 h2
    exact (validate_token_ok_iff s).mpr ⟨h1, h2⟩
  · intro s h
    exact ((validate_token_ok_iff s).mp h).2
  · intro s h
    exact le_trans h (length_le_rustLen s)

/-- C10 witness: the byte-length acceptance applied at a concrete
24-byte token. -/
theorem validate_token_byte_length_witness :
    validate_token "rl_abcdefghij1234567890yz".toList = Except.ok () :=
  validate_token_byte_length.1 "rl_abcdefghij1234567890yz".toList
    (by decide) (by decide)

end RedLetters
